import Mathlib

/-!
A shallow embedding of the transaction-processing engine of
`rust-payment-processor` (files `src/bank.rs`, `src/account.rs`,
`src/transaction.rs`, `src/errors.rs`), together with theorems checking the
specification's claims about it.

Modelling conventions:
* `rust_decimal::Decimal` values are embedded as rational numbers `ℚ`.
  Within its range, `Decimal` arithmetic (`+`, `-`) is exact and its
  `PartialEq`/`PartialOrd` compare numeric values, so `ℚ` with ordinary
  arithmetic is a faithful model for the amounts the engine manipulates.
  `Decimal::round_dp` rounds to the given number of fractional digits with
  the midpoint-nearest-even strategy; it is embedded as `roundDp` below.
* `u16` client ids and `u32` transaction ids are embedded as `Nat`; no
  operation of the engine depends on their bit width.
* The two `HashMap`s owned by `Bank` are embedded as association lists with
  `HashMap::insert` semantics (replace the binding if the key is present).
* Every fallible Rust method returning `Result<(), BankingError>` while
  mutating `&mut self` is embedded as a function returning the error or the
  updated value; `Bank::process_transaction` returns both its
  `Result<(), BankingError>` and the updated `Bank`, so that the state left
  behind by failing paths is modelled exactly as the in-place Rust code
  leaves it.
-/

/-- The error enumeration of `src/errors.rs` (`BankingError`). -/
inductive BankingError where
  | InvalidTransaction
  | NoSuchAccount
  | NoSuchTransaction
  | InsufficientFunds
  | ClientMismatch
  | UndisputedTransaction
  | DuplicateTransactionId
  | DuplicateDisputeRequest
  | AccountLocked
  deriving DecidableEq, Repr

/-- The transaction kinds of `src/transaction.rs` (`TransactionType`). -/
inductive TransactionType where
  | Deposit
  | Withdrawal
  | Dispute
  | Resolve
  | Chargeback
  deriving DecidableEq, Repr

/-- `Transaction` of `src/transaction.rs`: an incoming record or a stored
deposit/withdrawal. -/
structure Transaction where
  kind : TransactionType
  client : Nat
  tx : Nat
  amount : Option ℚ
  under_dispute : Bool
  deriving DecidableEq, Repr

/-- `Account` of `src/account.rs`. -/
structure Account where
  client : Nat
  available : ℚ
  held : ℚ
  total : ℚ
  locked : Bool
  deriving DecidableEq, Repr

/-- Floor of a rational as an integer (computable). -/
def floorQ (q : ℚ) : ℤ := Int.fdiv q.num (q.den : ℤ)

/-- Round a rational to the nearest integer, ties to the even integer:
the `MidpointNearestEven` strategy that `Decimal::round_dp` uses. -/
def roundHalfEven (q : ℚ) : ℤ :=
  let f := floorQ q
  let frac := q - (f : ℚ)
  if frac < 1/2 then f
  else if 1/2 < frac then f + 1
  else if f % 2 = 0 then f else f + 1

/-- `Decimal::round_dp(dp)`: round to `dp` fractional digits,
midpoint-nearest-even. -/
def roundDp (q : ℚ) (dp : Nat) : ℚ := (roundHalfEven (q * 10 ^ dp) : ℚ) / 10 ^ dp

/-- `DECIMAL_PLACES` of `src/transaction.rs`. -/
def DECIMAL_PLACES : Nat := 4

/-- Lookup in an association list, the embedding of `HashMap::get`. -/
def mlookup {α : Type} : List (Nat × α) → Nat → Option α
  | [], _ => none
  | (k, v) :: rest, key => if k = key then some v else mlookup rest key

/-- Insert-or-replace in an association list, the embedding of
`HashMap::insert`. -/
def minsert {α : Type} : List (Nat × α) → Nat → α → List (Nat × α)
  | [], key, v => [(key, v)]
  | (k, w) :: rest, key, v =>
    if k = key then (key, v) :: rest else (k, w) :: minsert rest key v

/-- The embedding of `HashMap::contains_key`. -/
def mcontains {α : Type} (m : List (Nat × α)) (key : Nat) : Bool :=
  (mlookup m key).isSome

/-- `Account::new` (`src/account.rs`). -/
def Account.new (client : Nat) : Account :=
  { client := client, available := 0, held := 0, locked := false, total := 0 }

/-- `Account::deposit` (`src/account.rs`): fails on a locked account,
otherwise increases `available` and `total`. -/
def Account.deposit (a : Account) (amount : ℚ) : Except BankingError Account :=
  if a.locked then .error .AccountLocked
  else .ok { a with available := a.available + amount, total := a.total + amount }

/-- `Account::withdraw` (`src/account.rs`): fails on a locked account or on
insufficient available funds, otherwise decreases `available` and `total`. -/
def Account.withdraw (a : Account) (amount : ℚ) : Except BankingError Account :=
  if a.locked then .error .AccountLocked
  else if a.available < amount then .error .InsufficientFunds
  else .ok { a with available := a.available - amount, total := a.total - amount }

/-- `Account::dispute` (`src/account.rs`): fails on a locked account,
otherwise moves the amount from `available` to `held`. -/
def Account.dispute (a : Account) (amount : ℚ) : Except BankingError Account :=
  if a.locked then .error .AccountLocked
  else .ok { a with available := a.available - amount, held := a.held + amount }

/-- `Account::resolve` (`src/account.rs`): fails on a locked account,
otherwise moves the amount from `held` back to `available`. -/
def Account.resolve (a : Account) (amount : ℚ) : Except BankingError Account :=
  if a.locked then .error .AccountLocked
  else .ok { a with held := a.held - amount, available := a.available + amount }

/-- `Account::chargeback` (`src/account.rs`): fails on a locked account,
otherwise decreases `total` and `held` and locks the account. -/
def Account.chargeback (a : Account) (amount : ℚ) : Except BankingError Account :=
  if a.locked then .error .AccountLocked
  else .ok { a with total := a.total - amount, held := a.held - amount, locked := true }

/-- `Transaction::round_to` (`src/transaction.rs`): round the amount, when
present, to the given number of decimal places. -/
def Transaction.round_to (t : Transaction) (decimal_places : Nat) : Transaction :=
  match t.amount with
  | some amount => { t with amount := some (roundDp amount decimal_places) }
  | none => t

/-- `Transaction::validate` (`src/transaction.rs`): a deposit or withdrawal
must carry an amount strictly greater than zero; afterwards the amount is
rounded to `DECIMAL_PLACES` digits. The Rust method mutates `self`; the
embedding returns the mutated transaction on success. -/
def Transaction.validate (t : Transaction) : Except BankingError Transaction :=
  match t.kind with
  | .Deposit | .Withdrawal =>
    match t.amount with
    | some amount =>
      if amount ≤ 0 then .error .InvalidTransaction
      else .ok (t.round_to DECIMAL_PLACES)
    | none => .error .InvalidTransaction
  | _ => .ok (t.round_to DECIMAL_PLACES)

/-- `Transaction::validate_against_stored` (`src/transaction.rs`):
cross-reference validation of a dispute/resolve/chargeback against the
stored transaction it references. -/
def Transaction.validate_against_stored (t stored_transaction : Transaction) :
    Except BankingError Unit :=
  match t.kind with
  | .Dispute =>
    if stored_transaction.kind ≠ .Deposit then .error .InvalidTransaction
    else if t.client ≠ stored_transaction.client then .error .ClientMismatch
    else if stored_transaction.under_dispute then .error .DuplicateDisputeRequest
    else .ok ()
  | .Resolve | .Chargeback =>
    if stored_transaction.kind ≠ .Deposit then .error .InvalidTransaction
    else if t.client ≠ stored_transaction.client then .error .ClientMismatch
    else if ¬stored_transaction.under_dispute then .error .UndisputedTransaction
    else .ok ()
  | _ => .ok ()

/-- `Bank` of `src/bank.rs`: the accounts map and the stored-transactions
map. -/
structure Bank where
  accounts : List (Nat × Account)
  transactions : List (Nat × Transaction)
  deriving DecidableEq, Repr

/-- `Bank::new`. -/
def Bank.new : Bank := { accounts := [], transactions := [] }

/-- `Bank::retrieve_account` (`src/bank.rs`): fetch the account for a
client, creating it first when `create` is set and it is absent. Returns
the (possibly extended) accounts map together with the outcome, since the
Rust function mutates the map in place. -/
def Bank.retrieve_account (client : Nat) (accounts : List (Nat × Account))
    (create : Bool) : List (Nat × Account) × Except BankingError Account :=
  let accounts :=
    if create && !(mcontains accounts client) then
      minsert accounts client (Account.new client)
    else accounts
  match mlookup accounts client with
  | some account => (accounts, .ok account)
  | none => (accounts, .error .NoSuchAccount)

/-- `Bank::retrieve_transaction` (`src/bank.rs`). -/
def Bank.retrieve_transaction (tx_id : Nat)
    (transactions : List (Nat × Transaction)) : Except BankingError Transaction :=
  match mlookup transactions tx_id with
  | some transaction => .ok transaction
  | none => .error .NoSuchTransaction

/-- `Bank::process_transaction` (`src/bank.rs`): validate and route one
incoming record, returning the `Result` and the bank state the Rust code
leaves behind (including the state left by failing paths). -/
def Bank.process_transaction (b : Bank) (transaction : Transaction) :
    Except BankingError Unit × Bank :=
  match transaction.kind with
  | .Deposit =>
    match transaction.validate with
    | .error e => (.error e, b)
    | .ok transaction =>
      if mcontains b.transactions transaction.tx then
        (.error .DuplicateTransactionId, b)
      else
        match Bank.retrieve_account transaction.client b.accounts true with
        | (accounts, .error e) => (.error e, { b with accounts := accounts })
        | (accounts, .ok account) =>
          match account.deposit (transaction.amount.getD 0) with
          | .error e => (.error e, { b with accounts := accounts })
          | .ok account =>
            (.ok (), { accounts := minsert accounts transaction.client account,
                       transactions := minsert b.transactions transaction.tx transaction })
  | .Withdrawal =>
    match transaction.validate with
    | .error e => (.error e, b)
    | .ok transaction =>
      if mcontains b.transactions transaction.tx then
        (.error .DuplicateTransactionId, b)
      else
        match Bank.retrieve_account transaction.client b.accounts false with
        | (accounts, .error e) => (.error e, { b with accounts := accounts })
        | (accounts, .ok account) =>
          match account.withdraw (transaction.amount.getD 0) with
          | .error e => (.error e, { b with accounts := accounts })
          | .ok account =>
            (.ok (), { accounts := minsert accounts transaction.client account,
                       transactions := minsert b.transactions transaction.tx transaction })
  | .Dispute =>
    match Bank.retrieve_transaction transaction.tx b.transactions with
    | .error e => (.error e, b)
    | .ok stored_transaction =>
      match transaction.validate_against_stored stored_transaction with
      | .error e => (.error e, b)
      | .ok _ =>
        match Bank.retrieve_account transaction.client b.accounts false with
        | (accounts, .error e) => (.error e, { b with accounts := accounts })
        | (accounts, .ok account) =>
          match account.dispute (stored_transaction.amount.getD 0) with
          | .error e => (.error e, { b with accounts := accounts })
          | .ok account =>
            (.ok (), { accounts := minsert accounts transaction.client account,
                       transactions := minsert b.transactions transaction.tx
                         { stored_transaction with under_dispute := true } })
  | .Resolve =>
    match Bank.retrieve_transaction transaction.tx b.transactions with
    | .error e => (.error e, b)
    | .ok stored_transaction =>
      match transaction.validate_against_stored stored_transaction with
      | .error e => (.error e, b)
      | .ok _ =>
        match Bank.retrieve_account transaction.client b.accounts false with
        | (accounts, .error e) => (.error e, { b with accounts := accounts })
        | (accounts, .ok account) =>
          match account.resolve (stored_transaction.amount.getD 0) with
          | .error e => (.error e, { b with accounts := accounts })
          | .ok account =>
            (.ok (), { accounts := minsert accounts transaction.client account,
                       transactions := minsert b.transactions transaction.tx
                         { stored_transaction with under_dispute := false } })
  | .Chargeback =>
    match Bank.retrieve_transaction transaction.tx b.transactions with
    | .error e => (.error e, b)
    | .ok stored_transaction =>
      match transaction.validate_against_stored stored_transaction with
      | .error e => (.error e, b)
      | .ok _ =>
        match Bank.retrieve_account transaction.client b.accounts false with
        | (accounts, .error e) => (.error e, { b with accounts := accounts })
        | (accounts, .ok account) =>
          match account.chargeback (stored_transaction.amount.getD 0) with
          | .error e => (.error e, { b with accounts := accounts })
          | .ok account =>
            (.ok (), { accounts := minsert accounts transaction.client account,
                       transactions := minsert b.transactions transaction.tx
                         { stored_transaction with under_dispute := false } })

/-- `Bank::process_record_set` (`src/bank.rs`) restricted to the engine:
process the records in order; a failing record is logged and processing
continues with the next one. -/
def Bank.process_all (b : Bank) (ts : List Transaction) : Bank :=
  ts.foldl (fun b t => (b.process_transaction t).2) b

/-- Whether a `Result` from the engine is `Ok`. -/
def isOk : Except BankingError Unit → Bool
  | .ok _ => true
  | .error _ => false

/-- An incoming record with no amount. -/
def mkRecord (kind : TransactionType) (client tx : Nat) : Transaction :=
  { kind := kind, client := client, tx := tx, amount := none, under_dispute := false }

/-- An incoming record with an amount. -/
def mkAmtRecord (kind : TransactionType) (client tx : Nat) (amount : ℚ) : Transaction :=
  { kind := kind, client := client, tx := tx, amount := some amount, under_dispute := false }

/-- Whether a transaction kind belongs to the dispute family
(dispute/resolve/chargeback). -/
def disputeFamily : TransactionType → Bool
  | .Dispute | .Resolve | .Chargeback => true
  | _ => false

/-- Whether an incoming record passes shape validation, the duplicate-id
check, and (for the dispute family) cross-reference validation against the
stored transactions of `b`: everything `process_transaction` checks before
it reaches the account operation. -/
def passes_prechecks (b : Bank) (t : Transaction) : Bool :=
  match t.kind with
  | .Deposit | .Withdrawal =>
    (match t.amount with
     | some x => decide (0 < x)
     | none => false) && !(mcontains b.transactions t.tx)
  | .Dispute | .Resolve | .Chargeback =>
    match mlookup b.transactions t.tx with
    | some st =>
      match t.validate_against_stored st with
      | .ok _ => true
      | .error _ => false
    | none => false

/-- `noDisputeApplied c b ts` holds when, while processing `ts` from state
`b`, no dispute/resolve/chargeback record addressed to client `c` is
applied successfully: account `c` is never the subject of successful
dispute activity. -/
def noDisputeApplied (c : Nat) : Bank → List Transaction → Bool
  | _, [] => true
  | b, t :: ts =>
    !(disputeFamily t.kind && (t.client == c) && isOk (b.process_transaction t).1) &&
      noDisputeApplied c (b.process_transaction t).2 ts

/-- The engine state reached from empty by deposit(client 1, tx 1, amount 5),
dispute(1, 1), chargeback(1, 1): account 1 is locked. -/
def lockedBank : Bank :=
  Bank.new.process_all
    [mkAmtRecord .Deposit 1 1 5, mkRecord .Dispute 1 1, mkRecord .Chargeback 1 1]

deriving instance DecidableEq for Except

/-! ### Helper lemmas about the association-list maps -/

theorem mlookup_minsert_self {α : Type} (m : List (Nat × α)) (k : Nat) (v : α) :
    mlookup (minsert m k v) k = some v := by
  induction m with
  | nil => simp [minsert, mlookup]
  | cons hd tl ih =>
    obtain ⟨k', v'⟩ := hd
    by_cases h : k' = k <;> simp [minsert, mlookup, h, ih]

theorem mlookup_minsert_ne {α : Type} (m : List (Nat × α)) (k c : Nat) (v : α)
    (h : k ≠ c) : mlookup (minsert m k v) c = mlookup m c := by
  induction m with
  | nil => simp [minsert, mlookup, h]
  | cons hd tl ih =>
    obtain ⟨k', v'⟩ := hd
    by_cases h' : k' = k
    · subst h'; simp [minsert, mlookup, h]
    · simp [minsert, mlookup, h']
      split <;> simp [ih]

/-! ### Helper lemmas about the account operations -/

theorem Account.deposit_ok {a a' : Account} {x : ℚ} (h : a.deposit x = .ok a') :
    a.locked = false ∧
      a' = { a with available := a.available + x, total := a.total + x } := by
  unfold Account.deposit at h
  split at h
  · exact absurd h (by simp)
  · simp_all

theorem Account.withdraw_ok {a a' : Account} {x : ℚ} (h : a.withdraw x = .ok a') :
    a.locked = false ∧ ¬a.available < x ∧
      a' = { a with available := a.available - x, total := a.total - x } := by
  unfold Account.withdraw at h
  split at h
  · exact absurd h (by simp)
  · split at h
    · exact absurd h (by simp)
    · simp_all

theorem Account.dispute_ok {a a' : Account} {x : ℚ} (h : a.dispute x = .ok a') :
    a.locked = false ∧
      a' = { a with available := a.available - x, held := a.held + x } := by
  unfold Account.dispute at h
  split at h
  · exact absurd h (by simp)
  · simp_all

theorem Account.resolve_ok {a a' : Account} {x : ℚ} (h : a.resolve x = .ok a') :
    a.locked = false ∧
      a' = { a with held := a.held - x, available := a.available + x } := by
  unfold Account.resolve at h
  split at h
  · exact absurd h (by simp)
  · simp_all

theorem Account.chargeback_ok {a a' : Account} {x : ℚ} (h : a.chargeback x = .ok a') :
    a.locked = false ∧
      a' = { a with total := a.total - x, held := a.held - x, locked := true } := by
  unfold Account.chargeback at h
  split at h
  · exact absurd h (by simp)
  · simp_all

theorem Account.deposit_locked {a : Account} {x : ℚ} (h : a.locked = true) :
    a.deposit x = .error .AccountLocked := by simp [Account.deposit, h]

theorem Account.withdraw_locked {a : Account} {x : ℚ} (h : a.locked = true) :
    a.withdraw x = .error .AccountLocked := by simp [Account.withdraw, h]

theorem Account.dispute_locked {a : Account} {x : ℚ} (h : a.locked = true) :
    a.dispute x = .error .AccountLocked := by simp [Account.dispute, h]

theorem Account.resolve_locked {a : Account} {x : ℚ} (h : a.locked = true) :
    a.resolve x = .error .AccountLocked := by simp [Account.resolve, h]

theorem Account.chargeback_locked {a : Account} {x : ℚ} (h : a.locked = true) :
    a.chargeback x = .error .AccountLocked := by simp [Account.chargeback, h]

/-! ### Helper lemmas about account retrieval -/

theorem mcontains_iff {α : Type} {m : List (Nat × α)} {k : Nat} :
    mcontains m k = true ↔ ∃ v, mlookup m k = some v := by
  unfold mcontains
  cases h : mlookup m k <;> simp

/-- Full characterization of `Bank.retrieve_account` by the prior contents
of the accounts map. -/
theorem Bank.retrieve_account_spec (client : Nat) (m : List (Nat × Account))
    (create : Bool) :
    Bank.retrieve_account client m create =
      match mlookup m client, create with
      | some a, _ => (m, .ok a)
      | none, true => (minsert m client (Account.new client), .ok (Account.new client))
      | none, false => (m, .error .NoSuchAccount) := by
  cases hl : mlookup m client <;> cases create <;>
    simp [Bank.retrieve_account, mcontains, hl, mlookup_minsert_self]

theorem minsert_minsert_self {α : Type} (m : List (Nat × α)) (k : Nat) (v w : α) :
    minsert (minsert m k v) k w = minsert m k w := by
  induction m with
  | nil => simp [minsert]
  | cons hd tl ih =>
    obtain ⟨k', v'⟩ := hd
    by_cases h : k' = k <;> simp [minsert, h, ih]

/-! ### Flat characterizations of `Bank.process_transaction`, one per kind -/

theorem process_deposit_eq (b : Bank) (cl tx : Nat) (amt : Option ℚ) (ud : Bool) :
    b.process_transaction
        { kind := .Deposit, client := cl, tx := tx, amount := amt, under_dispute := ud } =
      match amt with
      | none => (.error .InvalidTransaction, b)
      | some x =>
        if x ≤ 0 then (.error .InvalidTransaction, b)
        else if mcontains b.transactions tx then (.error .DuplicateTransactionId, b)
        else
          match mlookup b.accounts cl with
          | some a =>
            if a.locked then (.error .AccountLocked, b)
            else
              (.ok (),
                { accounts :=
                    minsert b.accounts cl
                      { a with available := a.available + roundDp x 4,
                               total := a.total + roundDp x 4 },
                  transactions :=
                    minsert b.transactions tx
                      { kind := .Deposit, client := cl, tx := tx,
                        amount := some (roundDp x 4), under_dispute := ud } })
          | none =>
            (.ok (),
              { accounts :=
                  minsert b.accounts cl
                    { client := cl, available := roundDp x 4, held := 0,
                      total := roundDp x 4, locked := false },
                transactions :=
                  minsert b.transactions tx
                    { kind := .Deposit, client := cl, tx := tx,
                      amount := some (roundDp x 4), under_dispute := ud } }) := by
  cases amt with
  | none => simp [Bank.process_transaction, Transaction.validate]
  | some x =>
    by_cases hx : x ≤ 0
    · simp [Bank.process_transaction, Transaction.validate, hx]
    · by_cases hdup : mcontains b.transactions tx
      · simp [Bank.process_transaction, Transaction.validate, Transaction.round_to, hx, hdup]
      · cases hl : mlookup b.accounts cl with
        | some a =>
          by_cases hlk : a.locked
          · simp [Bank.process_transaction, Transaction.validate, Transaction.round_to,
              DECIMAL_PLACES, hx, hdup, Bank.retrieve_account_spec, hl, hlk, Account.deposit]
          · simp [Bank.process_transaction, Transaction.validate, Transaction.round_to,
              DECIMAL_PLACES, hx, hdup, Bank.retrieve_account_spec, hl, hlk, Account.deposit]
        | none =>
          simp [Bank.process_transaction, Transaction.validate, Transaction.round_to,
            DECIMAL_PLACES, hx, hdup, Bank.retrieve_account_spec, hl, Account.deposit,
            Account.new, minsert_minsert_self]

theorem process_withdrawal_eq (b : Bank) (cl tx : Nat) (amt : Option ℚ) (ud : Bool) :
    b.process_transaction
        { kind := .Withdrawal, client := cl, tx := tx, amount := amt, under_dispute := ud } =
      match amt with
      | none => (.error .InvalidTransaction, b)
      | some x =>
        if x ≤ 0 then (.error .InvalidTransaction, b)
        else if mcontains b.transactions tx then (.error .DuplicateTransactionId, b)
        else
          match mlookup b.accounts cl with
          | none => (.error .NoSuchAccount, b)
          | some a =>
            if a.locked then (.error .AccountLocked, b)
            else if a.available < roundDp x 4 then (.error .InsufficientFunds, b)
            else
              (.ok (),
                { accounts :=
                    minsert b.accounts cl
                      { a with available := a.available - roundDp x 4,
                               total := a.total - roundDp x 4 },
                  transactions :=
                    minsert b.transactions tx
                      { kind := .Withdrawal, client := cl, tx := tx,
                        amount := some (roundDp x 4), under_dispute := ud } }) := by
  cases amt with
  | none => simp [Bank.process_transaction, Transaction.validate]
  | some x =>
    by_cases hx : x ≤ 0
    · simp [Bank.process_transaction, Transaction.validate, hx]
    · by_cases hdup : mcontains b.transactions tx
      · simp [Bank.process_transaction, Transaction.validate, Transaction.round_to, hx, hdup]
      · cases hl : mlookup b.accounts cl with
        | none =>
          simp [Bank.process_transaction, Transaction.validate, Transaction.round_to,
            DECIMAL_PLACES, hx, hdup, Bank.retrieve_account_spec, hl]
        | some a =>
          by_cases hlk : a.locked
          · simp [Bank.process_transaction, Transaction.validate, Transaction.round_to,
              DECIMAL_PLACES, hx, hdup, Bank.retrieve_account_spec, hl, hlk, Account.withdraw]
          · by_cases hav : a.available < roundDp x 4
            · simp [Bank.process_transaction, Transaction.validate, Transaction.round_to,
                DECIMAL_PLACES, hx, hdup, Bank.retrieve_account_spec, hl, hlk, hav,
                Account.withdraw]
            · simp [Bank.process_transaction, Transaction.validate, Transaction.round_to,
                DECIMAL_PLACES, hx, hdup, Bank.retrieve_account_spec, hl, hlk, hav,
                Account.withdraw]

theorem process_dispute_eq (b : Bank) (cl tx : Nat) (amt : Option ℚ) (ud : Bool) :
    b.process_transaction
        { kind := .Dispute, client := cl, tx := tx, amount := amt, under_dispute := ud } =
      match mlookup b.transactions tx with
      | none => (.error .NoSuchTransaction, b)
      | some st =>
        if st.kind ≠ .Deposit then (.error .InvalidTransaction, b)
        else if cl ≠ st.client then (.error .ClientMismatch, b)
        else if st.under_dispute then (.error .DuplicateDisputeRequest, b)
        else
          match mlookup b.accounts cl with
          | none => (.error .NoSuchAccount, b)
          | some a =>
            if a.locked then (.error .AccountLocked, b)
            else
              (.ok (),
                { accounts :=
                    minsert b.accounts cl
                      { a with available := a.available - st.amount.getD 0,
                               held := a.held + st.amount.getD 0 },
                  transactions :=
                    minsert b.transactions tx { st with under_dispute := true } }) := by
  cases hst : mlookup b.transactions tx with
  | none => simp [Bank.process_transaction, Bank.retrieve_transaction, hst]
  | some st =>
    by_cases hk : st.kind = .Deposit
    · by_cases hcl : cl = st.client
      · subst hcl
        by_cases hud : st.under_dispute
        · simp [Bank.process_transaction, Bank.retrieve_transaction,
            Transaction.validate_against_stored, hst, hk, hud]
        · cases hl : mlookup b.accounts st.client with
          | none =>
            simp [Bank.process_transaction, Bank.retrieve_transaction,
              Transaction.validate_against_stored, hst, hk, hud,
              Bank.retrieve_account_spec, hl]
          | some a =>
            by_cases hlk : a.locked
            · simp [Bank.process_transaction, Bank.retrieve_transaction,
                Transaction.validate_against_stored, hst, hk, hud,
                Bank.retrieve_account_spec, hl, hlk, Account.dispute]
            · simp [Bank.process_transaction, Bank.retrieve_transaction,
                Transaction.validate_against_stored, hst, hk, hud,
                Bank.retrieve_account_spec, hl, hlk, Account.dispute]
      · simp [Bank.process_transaction, Bank.retrieve_transaction,
          Transaction.validate_against_stored, hst, hk, hcl]
    · simp [Bank.process_transaction, Bank.retrieve_transaction,
        Transaction.validate_against_stored, hst, hk]

theorem process_resolve_eq (b : Bank) (cl tx : Nat) (amt : Option ℚ) (ud : Bool) :
    b.process_transaction
        { kind := .Resolve, client := cl, tx := tx, amount := amt, under_dispute := ud } =
      match mlookup b.transactions tx with
      | none => (.error .NoSuchTransaction, b)
      | some st =>
        if st.kind ≠ .Deposit then (.error .InvalidTransaction, b)
        else if cl ≠ st.client then (.error .ClientMismatch, b)
        else if ¬st.under_dispute then (.error .UndisputedTransaction, b)
        else
          match mlookup b.accounts cl with
          | none => (.error .NoSuchAccount, b)
          | some a =>
            if a.locked then (.error .AccountLocked, b)
            else
              (.ok (),
                { accounts :=
                    minsert b.accounts cl
                      { a with held := a.held - st.amount.getD 0,
                               available := a.available + st.amount.getD 0 },
                  transactions :=
                    minsert b.transactions tx { st with under_dispute := false } }) := by
  cases hst : mlookup b.transactions tx with
  | none => simp [Bank.process_transaction, Bank.retrieve_transaction, hst]
  | some st =>
    by_cases hk : st.kind = .Deposit
    · by_cases hcl : cl = st.client
      · subst hcl
        by_cases hud : st.under_dispute
        · cases hl : mlookup b.accounts st.client with
          | none =>
            simp [Bank.process_transaction, Bank.retrieve_transaction,
              Transaction.validate_against_stored, hst, hk, hud,
              Bank.retrieve_account_spec, hl]
          | some a =>
            by_cases hlk : a.locked
            · simp [Bank.process_transaction, Bank.retrieve_transaction,
                Transaction.validate_against_stored, hst, hk, hud,
                Bank.retrieve_account_spec, hl, hlk, Account.resolve]
            · simp [Bank.process_transaction, Bank.retrieve_transaction,
                Transaction.validate_against_stored, hst, hk, hud,
                Bank.retrieve_account_spec, hl, hlk, Account.resolve]
        · simp [Bank.process_transaction, Bank.retrieve_transaction,
            Transaction.validate_against_stored, hst, hk, hud]
      · simp [Bank.process_transaction, Bank.retrieve_transaction,
          Transaction.validate_against_stored, hst, hk, hcl]
    · simp [Bank.process_transaction, Bank.retrieve_transaction,
        Transaction.validate_against_stored, hst, hk]

theorem process_chargeback_eq (b : Bank) (cl tx : Nat) (amt : Option ℚ) (ud : Bool) :
    b.process_transaction
        { kind := .Chargeback, client := cl, tx := tx, amount := amt, under_dispute := ud } =
      match mlookup b.transactions tx with
      | none => (.error .NoSuchTransaction, b)
      | some st =>
        if st.kind ≠ .Deposit then (.error .InvalidTransaction, b)
        else if cl ≠ st.client then (.error .ClientMismatch, b)
        else if ¬st.under_dispute then (.error .UndisputedTransaction, b)
        else
          match mlookup b.accounts cl with
          | none => (.error .NoSuchAccount, b)
          | some a =>
            if a.locked then (.error .AccountLocked, b)
            else
              (.ok (),
                { accounts :=
                    minsert b.accounts cl
                      { a with total := a.total - st.amount.getD 0,
                               held := a.held - st.amount.getD 0, locked := true },
                  transactions :=
                    minsert b.transactions tx { st with under_dispute := false } }) := by
  cases hst : mlookup b.transactions tx with
  | none => simp [Bank.process_transaction, Bank.retrieve_transaction, hst]
  | some st =>
    by_cases hk : st.kind = .Deposit
    · by_cases hcl : cl = st.client
      · subst hcl
        by_cases hud : st.under_dispute
        · cases hl : mlookup b.accounts st.client with
          | none =>
            simp [Bank.process_transaction, Bank.retrieve_transaction,
              Transaction.validate_against_stored, hst, hk, hud,
              Bank.retrieve_account_spec, hl]
          | some a =>
            by_cases hlk : a.locked
            · simp [Bank.process_transaction, Bank.retrieve_transaction,
                Transaction.validate_against_stored, hst, hk, hud,
                Bank.retrieve_account_spec, hl, hlk, Account.chargeback]
            · simp [Bank.process_transaction, Bank.retrieve_transaction,
                Transaction.validate_against_stored, hst, hk, hud,
                Bank.retrieve_account_spec, hl, hlk, Account.chargeback]
        · simp [Bank.process_transaction, Bank.retrieve_transaction,
            Transaction.validate_against_stored, hst, hk, hud]
      · simp [Bank.process_transaction, Bank.retrieve_transaction,
          Transaction.validate_against_stored, hst, hk, hcl]
    · simp [Bank.process_transaction, Bank.retrieve_transaction,
        Transaction.validate_against_stored, hst, hk]

theorem process_all_nil (b : Bank) : b.process_all [] = b := rfl

theorem process_all_cons (b : Bank) (t : Transaction) (ts : List Transaction) :
    b.process_all (t :: ts) = ((b.process_transaction t).2).process_all ts := rfl

/-- Any failing record leaves the bank exactly as it was. -/
theorem process_error_eq {b b' : Bank} {t : Transaction} {e : BankingError}
    (h : b.process_transaction t = (.error e, b')) : b' = b := by
  obtain ⟨k, cl, tx, amt, ud⟩ := t
  cases k with
  | Deposit =>
    rw [process_deposit_eq] at h
    repeat' split at h
    all_goals simp_all
  | Withdrawal =>
    rw [process_withdrawal_eq] at h
    repeat' split at h
    all_goals simp_all
  | Dispute =>
    rw [process_dispute_eq] at h
    repeat' split at h
    all_goals simp_all
  | Resolve =>
    rw [process_resolve_eq] at h
    repeat' split at h
    all_goals simp_all
  | Chargeback =>
    rw [process_chargeback_eq] at h
    repeat' split at h
    all_goals simp_all

/-- A record whose client differs from `c` never changes what the accounts
map stores at `c`. -/
theorem process_other_client {b : Bank} {k : TransactionType} {cl tx : Nat}
    {amt : Option ℚ} {ud : Bool} {c : Nat} (hc : cl ≠ c) :
    mlookup ((b.process_transaction
        { kind := k, client := cl, tx := tx, amount := amt,
          under_dispute := ud }).2).accounts c = mlookup b.accounts c := by
  cases k with
  | Deposit =>
    rw [process_deposit_eq]
    repeat' split
    all_goals simp_all [mlookup_minsert_ne]
  | Withdrawal =>
    rw [process_withdrawal_eq]
    repeat' split
    all_goals simp_all [mlookup_minsert_ne]
  | Dispute =>
    rw [process_dispute_eq]
    repeat' split
    all_goals simp_all [mlookup_minsert_ne]
  | Resolve =>
    rw [process_resolve_eq]
    repeat' split
    all_goals simp_all [mlookup_minsert_ne]
  | Chargeback =>
    rw [process_chargeback_eq]
    repeat' split
    all_goals simp_all [mlookup_minsert_ne]

/-- Any record addressed to a locked account fails and leaves the bank
unchanged, whatever its kind. -/
theorem process_locked_fails {b : Bank} {k : TransactionType} {cl tx : Nat}
    {amt : Option ℚ} {ud : Bool} {a : Account}
    (hl : mlookup b.accounts cl = some a) (hlk : a.locked = true) :
    ∃ e, b.process_transaction
        { kind := k, client := cl, tx := tx, amount := amt,
          under_dispute := ud } = (.error e, b) := by
  cases k with
  | Deposit =>
    rw [process_deposit_eq]
    cases amt with
    | none => exact ⟨_, rfl⟩
    | some x =>
      by_cases hx : x ≤ 0
      · simp [hx]
      · by_cases hdup : mcontains b.transactions tx
        · simp [hx, hdup]
        · simp [hx, hdup, hl, hlk]
  | Withdrawal =>
    rw [process_withdrawal_eq]
    cases amt with
    | none => exact ⟨_, rfl⟩
    | some x =>
      by_cases hx : x ≤ 0
      · simp [hx]
      · by_cases hdup : mcontains b.transactions tx
        · simp [hx, hdup]
        · simp [hx, hdup, hl, hlk]
  | Dispute =>
    rw [process_dispute_eq]
    cases hst : mlookup b.transactions tx with
    | none => exact ⟨_, rfl⟩
    | some st =>
      by_cases hk : st.kind = .Deposit
      · by_cases hcl : cl = st.client
        · subst hcl
          by_cases hud : st.under_dispute
          · simp [hk, hud]
          · simp [hk, hud, hl, hlk]
        · simp [hk, hcl]
      · simp [hk]
  | Resolve =>
    rw [process_resolve_eq]
    cases hst : mlookup b.transactions tx with
    | none => exact ⟨_, rfl⟩
    | some st =>
      by_cases hk : st.kind = .Deposit
      · by_cases hcl : cl = st.client
        · subst hcl
          by_cases hud : st.under_dispute
          · simp [hk, hud, hl, hlk]
          · simp [hk, hud]
        · simp [hk, hcl]
      · simp [hk]
  | Chargeback =>
    rw [process_chargeback_eq]
    cases hst : mlookup b.transactions tx with
    | none => exact ⟨_, rfl⟩
    | some st =>
      by_cases hk : st.kind = .Deposit
      · by_cases hcl : cl = st.client
        · subst hcl
          by_cases hud : st.under_dispute
          · simp [hk, hud, hl, hlk]
          · simp [hk, hud]
        · simp [hk, hcl]
      · simp [hk]

/-- Once an account is locked, the exact same account record survives any
further processed record stream. -/
theorem locked_persists {b : Bank} {c : Nat} {a : Account}
    (hl : mlookup b.accounts c = some a) (hlk : a.locked = true)
    (ts : List Transaction) :
    mlookup (b.process_all ts).accounts c = some a := by
  induction ts generalizing b with
  | nil => simpa [Bank.process_all]
  | cons t rest ih =>
    rw [process_all_cons]
    refine ih ?_
    obtain ⟨k, cl, tx, amt, ud⟩ := t
    by_cases hc : cl = c
    · subst hc
      obtain ⟨e, he⟩ := @process_locked_fails b k cl tx amt ud a hl hlk
      rw [he]
      exact hl
    · rw [process_other_client hc]
      exact hl

/-! ### Claim theorems -/

/-- C3: from the empty engine, deposit(client 1, tx 1, amount 5), then
withdrawal(client 1, tx 2, amount 5), then dispute(client 1, tx 1) all
succeed and leave account 1 at available -5, held 5, total 0, unlocked,
with stored transaction 1 marked under dispute: the dispute decreased
`available` by 5 while leaving `total` at 0. -/
theorem claim_C3_negative_available_scenario :
    (Bank.new.process_transaction (mkAmtRecord .Deposit 1 1 5)).1 = .ok () ∧
    ((Bank.new.process_all [mkAmtRecord .Deposit 1 1 5]).process_transaction
      (mkAmtRecord .Withdrawal 1 2 5)).1 = .ok () ∧
    ((Bank.new.process_all [mkAmtRecord .Deposit 1 1 5, mkAmtRecord .Withdrawal 1 2 5]).process_transaction
      (mkRecord .Dispute 1 1)).1 = .ok () ∧
    mlookup (Bank.new.process_all [mkAmtRecord .Deposit 1 1 5, mkAmtRecord .Withdrawal 1 2 5,
        mkRecord .Dispute 1 1]).accounts 1 =
      some { client := 1, available := -5, held := 5, total := 0, locked := false } ∧
    mlookup (Bank.new.process_all [mkAmtRecord .Deposit 1 1 5, mkAmtRecord .Withdrawal 1 2 5,
        mkRecord .Dispute 1 1]).transactions 1 =
      some { kind := .Deposit, client := 1, tx := 1, amount := some 5, under_dispute := true } := by
  refine ⟨?_, ?_, ?_, ?_, ?_⟩ <;>
    norm_num [Bank.process_all, Bank.process_transaction, Bank.new, Bank.retrieve_account,
      Bank.retrieve_transaction, Transaction.validate, Transaction.validate_against_stored,
      Transaction.round_to, mkAmtRecord, mkRecord, roundDp, roundHalfEven, floorQ, Int.fdiv,
      DECIMAL_PLACES, mlookup, minsert, mcontains, Account.new, Account.deposit,
      Account.withdraw, Account.dispute]

/-- C9: a deposit of 0.00001 passes validation (the positivity check sees
the unrounded amount), is rounded to 0, and succeeds: the transaction is
stored with amount 0 and the account's available and total stay 0. -/
theorem claim_C9_tiny_amount_rounds_to_zero :
    (0 : ℚ) < 1/100000 ∧
    roundDp (1/100000) 4 = 0 ∧
    (Bank.new.process_transaction (mkAmtRecord .Deposit 1 1 (1/100000))).1 = .ok () ∧
    mlookup (Bank.new.process_transaction (mkAmtRecord .Deposit 1 1 (1/100000))).2.transactions 1 =
      some { kind := .Deposit, client := 1, tx := 1, amount := some 0, under_dispute := false } ∧
    mlookup (Bank.new.process_transaction (mkAmtRecord .Deposit 1 1 (1/100000))).2.accounts 1 =
      some { client := 1, available := 0, held := 0, total := 0, locked := false } := by
  refine ⟨by norm_num, ?_, ?_, ?_, ?_⟩ <;>
    norm_num [Bank.process_transaction, Bank.new, Bank.retrieve_account, Transaction.validate,
      Transaction.round_to, mkAmtRecord, roundDp, roundHalfEven, floorQ, Int.fdiv,
      DECIMAL_PLACES, mlookup, minsert, mcontains, Account.new, Account.deposit]

/-- C2: a record whose processing returns any `BankingError` leaves the
engine state exactly unchanged: no account, lock flag, or stored
transaction is created or mutated. -/
theorem claim_C2_failed_record_no_mutation (b : Bank) (t : Transaction) (e : BankingError)
    (h : (b.process_transaction t).1 = .error e) : (b.process_transaction t).2 = b := by
  rcases hp : b.process_transaction t with ⟨r, b2⟩
  rw [hp] at h
  simp only at h
  subst h
  simpa using process_error_eq hp

theorem claim_C2_witness :
    (Bank.new.process_transaction (mkRecord .Dispute 1 1)).1 = .error .NoSuchTransaction ∧
    (Bank.new.process_transaction (mkRecord .Dispute 1 1)).2 = Bank.new :=
  ⟨by norm_num [Bank.process_transaction, Bank.new, Bank.retrieve_transaction, mkRecord, mlookup],
   claim_C2_failed_record_no_mutation Bank.new (mkRecord .Dispute 1 1) .NoSuchTransaction
     (by norm_num [Bank.process_transaction, Bank.new, Bank.retrieve_transaction, mkRecord, mlookup])⟩

/-- Conditions under which a dispute passes cross-reference validation. -/
theorem vas_dispute_ok {cl tx : Nat} {amt : Option ℚ} {ud : Bool} {st : Transaction}
    (h : Transaction.validate_against_stored
      { kind := .Dispute, client := cl, tx := tx, amount := amt, under_dispute := ud } st =
      .ok ()) :
    st.kind = .Deposit ∧ cl = st.client ∧ st.under_dispute = false := by
  unfold Transaction.validate_against_stored at h
  repeat' split at h
  all_goals simp_all

/-- Conditions under which a resolve passes cross-reference validation. -/
theorem vas_resolve_ok {cl tx : Nat} {amt : Option ℚ} {ud : Bool} {st : Transaction}
    (h : Transaction.validate_against_stored
      { kind := .Resolve, client := cl, tx := tx, amount := amt, under_dispute := ud } st =
      .ok ()) :
    st.kind = .Deposit ∧ cl = st.client ∧ st.under_dispute = true := by
  unfold Transaction.validate_against_stored at h
  repeat' split at h
  all_goals simp_all

/-- Conditions under which a chargeback passes cross-reference validation. -/
theorem vas_chargeback_ok {cl tx : Nat} {amt : Option ℚ} {ud : Bool} {st : Transaction}
    (h : Transaction.validate_against_stored
      { kind := .Chargeback, client := cl, tx := tx, amount := amt, under_dispute := ud } st =
      .ok ()) :
    st.kind = .Deposit ∧ cl = st.client ∧ st.under_dispute = true := by
  unfold Transaction.validate_against_stored at h
  repeat' split at h
  all_goals simp_all

/-- A record addressed to a locked account that passes shape validation,
the duplicate-transaction-id check, and cross-reference validation fails
with `AccountLocked`: the lock check is the first check the account
operation itself performs, after the engine-level validations. -/
theorem process_locked_prechecks {b : Bank} {k : TransactionType} {cl tx : Nat}
    {amt : Option ℚ} {ud : Bool} {a : Account}
    (hl : mlookup b.accounts cl = some a) (hlk : a.locked = true)
    (hp : passes_prechecks b
      { kind := k, client := cl, tx := tx, amount := amt, under_dispute := ud } = true) :
    (b.process_transaction
      { kind := k, client := cl, tx := tx, amount := amt, under_dispute := ud }).1 =
      .error .AccountLocked := by
  cases k with
  | Deposit =>
    cases amt with
    | none => simp [passes_prechecks] at hp
    | some x =>
      simp [passes_prechecks] at hp
      obtain ⟨hx, hdup⟩ := hp
      have hxle : ¬x ≤ 0 := not_le.mpr hx
      rw [process_deposit_eq]
      simp [hxle, hdup, hl, hlk]
  | Withdrawal =>
    cases amt with
    | none => simp [passes_prechecks] at hp
    | some x =>
      simp [passes_prechecks] at hp
      obtain ⟨hx, hdup⟩ := hp
      have hxle : ¬x ≤ 0 := not_le.mpr hx
      rw [process_withdrawal_eq]
      simp [hxle, hdup, hl, hlk]
  | Dispute =>
    simp only [passes_prechecks] at hp
    cases hst : mlookup b.transactions tx with
    | none => rw [hst] at hp; simp at hp
    | some st =>
      rw [hst] at hp
      cases hv : Transaction.validate_against_stored
          { kind := .Dispute, client := cl, tx := tx, amount := amt, under_dispute := ud } st with
      | error e => simp [hv] at hp
      | ok u =>
        obtain ⟨hk1, hk2, hk3⟩ := vas_dispute_ok (by rw [hv])
        subst hk2
        rw [process_dispute_eq]
        simp [hst, hk1, hk3, hl, hlk]
  | Resolve =>
    simp only [passes_prechecks] at hp
    cases hst : mlookup b.transactions tx with
    | none => rw [hst] at hp; simp at hp
    | some st =>
      rw [hst] at hp
      cases hv : Transaction.validate_against_stored
          { kind := .Resolve, client := cl, tx := tx, amount := amt, under_dispute := ud } st with
      | error e => simp [hv] at hp
      | ok u =>
        obtain ⟨hk1, hk2, hk3⟩ := vas_resolve_ok (by rw [hv])
        subst hk2
        rw [process_resolve_eq]
        simp [hst, hk1, hk3, hl, hlk]
  | Chargeback =>
    simp only [passes_prechecks] at hp
    cases hst : mlookup b.transactions tx with
    | none => rw [hst] at hp; simp at hp
    | some st =>
      rw [hst] at hp
      cases hv : Transaction.validate_against_stored
          { kind := .Chargeback, client := cl, tx := tx, amount := amt, under_dispute := ud } st with
      | error e => simp [hv] at hp
      | ok u =>
        obtain ⟨hk1, hk2, hk3⟩ := vas_chargeback_ok (by rw [hv])
        subst hk2
        rw [process_chargeback_eq]
        simp [hst, hk1, hk3, hl, hlk]

/-- C1 counterexample: account 1 of `lockedBank` is locked, yet a deposit
record for client 1 with a missing amount fails with `InvalidTransaction`
rather than `AccountLocked`: shape validation runs before the lock check,
refuting the claim that the lock check is evaluated first. -/
theorem claim_C1_counterexample :
    mlookup lockedBank.accounts 1 =
      some { client := 1, available := 0, held := 0, total := 0, locked := true } ∧
    (lockedBank.process_transaction (mkRecord .Deposit 1 7)).1 = .error .InvalidTransaction ∧
    (Except.error BankingError.InvalidTransaction : Except BankingError Unit) ≠
      .error .AccountLocked := by
  refine ⟨?_, ?_, by simp⟩ <;>
    norm_num [lockedBank, Bank.process_all, Bank.process_transaction, Bank.new,
      Bank.retrieve_account, Bank.retrieve_transaction, Transaction.validate,
      Transaction.validate_against_stored, Transaction.round_to, mkAmtRecord, mkRecord,
      roundDp, roundHalfEven, floorQ, Int.fdiv, DECIMAL_PLACES, mlookup, minsert, mcontains,
      Account.new, Account.deposit, Account.dispute, Account.chargeback]

/-- C1 (amended): a record addressed to a locked account always fails (and
leaves the bank unchanged), and it fails precisely with `AccountLocked`
whenever it passes shape validation, the duplicate-transaction-id check,
and cross-reference validation — the lock check runs after those checks
but before domain-specific checks and any mutation. -/
theorem claim_C1_locked_account_rejects (b : Bank) (k : TransactionType)
    (cl tx : Nat) (amt : Option ℚ) (ud : Bool) (a : Account)
    (hl : mlookup b.accounts cl = some a) (hlk : a.locked = true) :
    (∃ e, b.process_transaction
      { kind := k, client := cl, tx := tx, amount := amt, under_dispute := ud } =
      (.error e, b)) ∧
    (passes_prechecks b { kind := k, client := cl, tx := tx, amount := amt, under_dispute := ud } = true →
      (b.process_transaction
        { kind := k, client := cl, tx := tx, amount := amt, under_dispute := ud }).1 =
        .error .AccountLocked) := by
  exact ⟨process_locked_fails hl hlk, fun hp => process_locked_prechecks hl hlk hp⟩

theorem claim_C1_witness :
    mlookup lockedBank.accounts 1 =
      some { client := 1, available := 0, held := 0, total := 0, locked := true } ∧
    ((∃ e, lockedBank.process_transaction
        { kind := .Deposit, client := 1, tx := 2, amount := some 5, under_dispute := false } =
        (.error e, lockedBank)) ∧
      (passes_prechecks lockedBank
          { kind := .Deposit, client := 1, tx := 2, amount := some 5, under_dispute := false } = true →
        (lockedBank.process_transaction
          { kind := .Deposit, client := 1, tx := 2, amount := some 5, under_dispute := false }).1 =
          .error .AccountLocked)) :=
  ⟨by norm_num [lockedBank, Bank.process_all, Bank.process_transaction, Bank.new,
      Bank.retrieve_account, Bank.retrieve_transaction, Transaction.validate,
      Transaction.validate_against_stored, Transaction.round_to, mkAmtRecord, mkRecord,
      roundDp, roundHalfEven, floorQ, Int.fdiv, DECIMAL_PLACES, mlookup, minsert, mcontains,
      Account.new, Account.deposit, Account.dispute, Account.chargeback],
   claim_C1_locked_account_rejects lockedBank .Deposit 1 2 (some 5) false
     { client := 1, available := 0, held := 0, total := 0, locked := true }
     (by norm_num [lockedBank, Bank.process_all, Bank.process_transaction, Bank.new,
        Bank.retrieve_account, Bank.retrieve_transaction, Transaction.validate,
        Transaction.validate_against_stored, Transaction.round_to, mkAmtRecord, mkRecord,
        roundDp, roundHalfEven, floorQ, Int.fdiv, DECIMAL_PLACES, mlookup, minsert, mcontains,
        Account.new, Account.deposit, Account.dispute, Account.chargeback]) rfl⟩

/-- C4 counterexample: after deposit(1,1,5), dispute(1,1), chargeback(1,1),
account 1 is locked with balances 0/0/0, yet a subsequent deposit record
for client 1 with a missing amount fails with `InvalidTransaction`, not
`AccountLocked` — refuting the claim that every subsequent record for the
client fails with `AccountLocked`. -/
theorem claim_C4_counterexample :
    mlookup lockedBank.accounts 1 =
      some { client := 1, available := 0, held := 0, total := 0, locked := true } ∧
    (lockedBank.process_transaction (mkRecord .Deposit 1 2)).1 = .error .InvalidTransaction ∧
    (Except.error BankingError.InvalidTransaction : Except BankingError Unit) ≠
      .error .AccountLocked := by
  refine ⟨?_, ?_, by simp⟩ <;>
    norm_num [lockedBank, Bank.process_all, Bank.process_transaction, Bank.new,
      Bank.retrieve_account, Bank.retrieve_transaction, Transaction.validate,
      Transaction.validate_against_stored, Transaction.round_to, mkAmtRecord, mkRecord,
      roundDp, roundHalfEven, floorQ, Int.fdiv, DECIMAL_PLACES, mlookup, minsert, mcontains,
      Account.new, Account.deposit, Account.dispute, Account.chargeback]

/-- C4 (amended): the chargeback scenario succeeds and leaves account 1 at
0/0/0 and locked; every subsequently processed record for client 1, of any
kind and after any further record stream, fails with some `BankingError`,
and fails with `AccountLocked` whenever it passes shape validation, the
duplicate-transaction-id check, and cross-reference validation. -/
theorem claim_C4_chargeback_locks_account :
    (Bank.new.process_transaction (mkAmtRecord .Deposit 1 1 5)).1 = .ok () ∧
    ((Bank.new.process_all [mkAmtRecord .Deposit 1 1 5]).process_transaction
      (mkRecord .Dispute 1 1)).1 = .ok () ∧
    ((Bank.new.process_all [mkAmtRecord .Deposit 1 1 5, mkRecord .Dispute 1 1]).process_transaction
      (mkRecord .Chargeback 1 1)).1 = .ok () ∧
    mlookup lockedBank.accounts 1 =
      some { client := 1, available := 0, held := 0, total := 0, locked := true } ∧
    ∀ (ts : List Transaction) (t : Transaction), t.client = 1 →
      (∃ e, ((lockedBank.process_all ts).process_transaction t).1 = .error e) ∧
      (passes_prechecks (lockedBank.process_all ts) t = true →
        ((lockedBank.process_all ts).process_transaction t).1 = .error .AccountLocked) := by
  have hlb : mlookup lockedBank.accounts 1 =
      some { client := 1, available := 0, held := 0, total := 0, locked := true } := by
    norm_num [lockedBank, Bank.process_all, Bank.process_transaction, Bank.new,
      Bank.retrieve_account, Bank.retrieve_transaction, Transaction.validate,
      Transaction.validate_against_stored, Transaction.round_to, mkAmtRecord, mkRecord,
      roundDp, roundHalfEven, floorQ, Int.fdiv, DECIMAL_PLACES, mlookup, minsert, mcontains,
      Account.new, Account.deposit, Account.dispute, Account.chargeback]
  refine ⟨?_, ?_, ?_, hlb, ?_⟩
  · norm_num [Bank.process_transaction, Bank.new, Bank.retrieve_account, Transaction.validate,
      Transaction.round_to, mkAmtRecord, roundDp, roundHalfEven, floorQ, Int.fdiv,
      DECIMAL_PLACES, mlookup, minsert, mcontains, Account.new, Account.deposit]
  · norm_num [Bank.process_all, Bank.process_transaction, Bank.new, Bank.retrieve_account,
      Bank.retrieve_transaction, Transaction.validate, Transaction.validate_against_stored,
      Transaction.round_to, mkAmtRecord, mkRecord, roundDp, roundHalfEven, floorQ, Int.fdiv,
      DECIMAL_PLACES, mlookup, minsert, mcontains, Account.new, Account.deposit,
      Account.dispute]
  · norm_num [Bank.process_all, Bank.process_transaction, Bank.new, Bank.retrieve_account,
      Bank.retrieve_transaction, Transaction.validate, Transaction.validate_against_stored,
      Transaction.round_to, mkAmtRecord, mkRecord, roundDp, roundHalfEven, floorQ, Int.fdiv,
      DECIMAL_PLACES, mlookup, minsert, mcontains, Account.new, Account.deposit,
      Account.dispute, Account.chargeback]
  · intro ts t hc
    have hper := locked_persists hlb rfl ts
    obtain ⟨k, cl, tx, amt, ud⟩ := t
    simp only at hc
    subst hc
    constructor
    · obtain ⟨e, he⟩ :=
        @process_locked_fails (lockedBank.process_all ts) k 1 tx amt ud _ hper rfl
      exact ⟨e, by rw [he]⟩
    · intro hp
      exact process_locked_prechecks hper rfl hp

theorem claim_C4_witness :
    passes_prechecks (lockedBank.process_all []) (mkAmtRecord .Deposit 1 9 3) = true ∧
    (∃ e, ((lockedBank.process_all []).process_transaction (mkAmtRecord .Deposit 1 9 3)).1 =
      .error e) ∧
    ((lockedBank.process_all []).process_transaction (mkAmtRecord .Deposit 1 9 3)).1 =
      .error .AccountLocked :=
  ⟨by norm_num [passes_prechecks, lockedBank, Bank.process_all, Bank.process_transaction,
      Bank.new, Bank.retrieve_account, Bank.retrieve_transaction, Transaction.validate,
      Transaction.validate_against_stored, Transaction.round_to, mkAmtRecord, mkRecord,
      roundDp, roundHalfEven, floorQ, Int.fdiv, DECIMAL_PLACES, mlookup, minsert, mcontains,
      Account.new, Account.deposit, Account.dispute, Account.chargeback],
   (claim_C4_chargeback_locks_account.2.2.2.2 [] (mkAmtRecord .Deposit 1 9 3) rfl).1,
   (claim_C4_chargeback_locks_account.2.2.2.2 [] (mkAmtRecord .Deposit 1 9 3) rfl).2
     (by norm_num [passes_prechecks, lockedBank, Bank.process_all, Bank.process_transaction,
        Bank.new, Bank.retrieve_account, Bank.retrieve_transaction, Transaction.validate,
        Transaction.validate_against_stored, Transaction.round_to, mkAmtRecord, mkRecord,
        roundDp, roundHalfEven, floorQ, Int.fdiv, DECIMAL_PLACES, mlookup, minsert, mcontains,
        Account.new, Account.deposit, Account.dispute, Account.chargeback])⟩

/-- C5: for dispute/resolve/chargeback records, cross-reference validation
is applied in order and returns exactly the first failing check's error:
`NoSuchTransaction` if the referenced transaction is absent, else
`InvalidTransaction` if the stored kind is not `Deposit`, else
`ClientMismatch` if the clients differ, else `DuplicateDisputeRequest`
(dispute already under dispute) or `UndisputedTransaction`
(resolve/chargeback not under dispute). -/
theorem claim_C5_crossref_validation_order (b : Bank) (k : TransactionType)
    (cl tx : Nat) (amt : Option ℚ) (ud : Bool)
    (hk : k = .Dispute ∨ k = .Resolve ∨ k = .Chargeback) :
    (mlookup b.transactions tx = none →
      (b.process_transaction
        { kind := k, client := cl, tx := tx, amount := amt, under_dispute := ud }).1 =
        .error .NoSuchTransaction) ∧
    (∀ st, mlookup b.transactions tx = some st → st.kind ≠ .Deposit →
      (b.process_transaction
        { kind := k, client := cl, tx := tx, amount := amt, under_dispute := ud }).1 =
        .error .InvalidTransaction) ∧
    (∀ st, mlookup b.transactions tx = some st → st.kind = .Deposit → cl ≠ st.client →
      (b.process_transaction
        { kind := k, client := cl, tx := tx, amount := amt, under_dispute := ud }).1 =
        .error .ClientMismatch) ∧
    (k = .Dispute → ∀ st, mlookup b.transactions tx = some st → st.kind = .Deposit →
      cl = st.client → st.under_dispute = true →
      (b.process_transaction
        { kind := k, client := cl, tx := tx, amount := amt, under_dispute := ud }).1 =
        .error .DuplicateDisputeRequest) ∧
    ((k = .Resolve ∨ k = .Chargeback) → ∀ st, mlookup b.transactions tx = some st →
      st.kind = .Deposit → cl = st.client → st.under_dispute = false →
      (b.process_transaction
        { kind := k, client := cl, tx := tx, amount := amt, under_dispute := ud }).1 =
        .error .UndisputedTransaction) := by
  rcases hk with rfl | rfl | rfl
  · rw [process_dispute_eq]
    refine ⟨fun h0 => by simp [h0], fun st hst hkind => by simp [hst, hkind],
      fun st hst hkind hcl => by simp [hst, hkind, hcl],
      fun _ st hst hkind hcl hud => by subst hcl; simp [hst, hkind, hud],
      fun hcontra => by rcases hcontra with h | h <;> exact absurd h (by simp)⟩
  · rw [process_resolve_eq]
    refine ⟨fun h0 => by simp [h0], fun st hst hkind => by simp [hst, hkind],
      fun st hst hkind hcl => by simp [hst, hkind, hcl],
      fun hcontra => absurd hcontra (by simp),
      fun _ st hst hkind hcl hud => by subst hcl; simp [hst, hkind, hud]⟩
  · rw [process_chargeback_eq]
    refine ⟨fun h0 => by simp [h0], fun st hst hkind => by simp [hst, hkind],
      fun st hst hkind hcl => by simp [hst, hkind, hcl],
      fun hcontra => absurd hcontra (by simp),
      fun _ st hst hkind hcl hud => by subst hcl; simp [hst, hkind, hud]⟩

theorem claim_C5_witness :
    (TransactionType.Dispute = TransactionType.Dispute ∨
      TransactionType.Dispute = TransactionType.Resolve ∨
      TransactionType.Dispute = TransactionType.Chargeback) ∧
    (mlookup Bank.new.transactions 1 = none →
      (Bank.new.process_transaction
        { kind := .Dispute, client := 1, tx := 1, amount := none, under_dispute := false }).1 =
        .error .NoSuchTransaction) ∧
    mlookup Bank.new.transactions 1 = none ∧
    (Bank.new.process_transaction
      { kind := .Dispute, client := 1, tx := 1, amount := none, under_dispute := false }).1 =
      .error .NoSuchTransaction :=
  ⟨Or.inl rfl,
   (claim_C5_crossref_validation_order Bank.new .Dispute 1 1 none false (Or.inl rfl)).1,
   rfl,
   (claim_C5_crossref_validation_order Bank.new .Dispute 1 1 none false (Or.inl rfl)).1 rfl⟩

/-- C8 counterexample: client 1 has no account in the empty engine, yet a
withdrawal record with a missing amount fails with `InvalidTransaction`,
not `NoSuchAccount` — shape validation runs before the account lookup, so
not every withdrawal on a missing account yields `NoSuchAccount`. -/
theorem claim_C8_counterexample :
    mlookup Bank.new.accounts 1 = none ∧
    (Bank.new.process_transaction (mkRecord .Withdrawal 1 1)).1 = .error .InvalidTransaction ∧
    (Except.error BankingError.InvalidTransaction : Except BankingError Unit) ≠
      .error .NoSuchAccount := by
  refine ⟨rfl, ?_, by simp⟩
  norm_num [Bank.process_transaction, Bank.new, Transaction.validate, mkRecord]

/-- C8 (amended): for a client with no account, a well-shaped (present,
positive amount) non-duplicate deposit creates the account and succeeds; a
well-shaped non-duplicate withdrawal fails with `NoSuchAccount`; no
withdrawal and no dispute/resolve/chargeback ever creates the account
(ill-shaped records fail with their validation error instead). -/
theorem claim_C8_deposits_create_accounts (b : Bank) (cl tx : Nat) (amt : Option ℚ)
    (ud : Bool) (hnone : mlookup b.accounts cl = none) :
    (∀ x, amt = some x → 0 < x → mcontains b.transactions tx = false →
      (b.process_transaction
        { kind := .Deposit, client := cl, tx := tx, amount := amt, under_dispute := ud }).1 =
        .ok () ∧
      mlookup (b.process_transaction
        { kind := .Deposit, client := cl, tx := tx, amount := amt,
          under_dispute := ud }).2.accounts cl =
        some { client := cl, available := roundDp x 4, held := 0, total := roundDp x 4,
               locked := false }) ∧
    (∀ x, amt = some x → 0 < x → mcontains b.transactions tx = false →
      (b.process_transaction
        { kind := .Withdrawal, client := cl, tx := tx, amount := amt, under_dispute := ud }).1 =
        .error .NoSuchAccount) ∧
    mlookup (b.process_transaction
      { kind := .Withdrawal, client := cl, tx := tx, amount := amt,
        under_dispute := ud }).2.accounts cl = none ∧
    (∀ k, k = .Dispute ∨ k = .Resolve ∨ k = .Chargeback →
      mlookup (b.process_transaction
        { kind := k, client := cl, tx := tx, amount := amt,
          under_dispute := ud }).2.accounts cl = none) := by
  refine ⟨?_, ?_, ?_, ?_⟩
  · rintro x rfl hpos hdup
    rw [process_deposit_eq]
    simp [not_le.mpr hpos, hdup, hnone, mlookup_minsert_self]
  · rintro x rfl hpos hdup
    rw [process_withdrawal_eq]
    simp [not_le.mpr hpos, hdup, hnone]
  · rw [process_withdrawal_eq]
    repeat' split
    all_goals simp_all
  · rintro k (rfl | rfl | rfl)
    · rw [process_dispute_eq]
      repeat' split
      all_goals simp_all
    · rw [process_resolve_eq]
      repeat' split
      all_goals simp_all
    · rw [process_chargeback_eq]
      repeat' split
      all_goals simp_all

theorem claim_C8_witness :
    mlookup Bank.new.accounts 1 = none ∧
    (Bank.new.process_transaction
      { kind := .Deposit, client := 1, tx := 1, amount := some 5, under_dispute := false }).1 =
      .ok () ∧
    mlookup (Bank.new.process_transaction
      { kind := .Deposit, client := 1, tx := 1, amount := some 5,
        under_dispute := false }).2.accounts 1 =
      some { client := 1, available := roundDp 5 4, held := 0, total := roundDp 5 4,
             locked := false } :=
  ⟨rfl,
   ((claim_C8_deposits_create_accounts Bank.new 1 1 (some 5) false rfl).1 5 rfl
     (by norm_num) rfl).1,
   ((claim_C8_deposits_create_accounts Bank.new 1 1 (some 5) false rfl).1 5 rfl
     (by norm_num) rfl).2⟩

/-- C7: a deposit or withdrawal that succeeds stores the incoming record
with its amount rounded to 4 digits (half-to-even), and applies exactly
that rounded amount to the account's `available` and `total` — rounding
happens after validation and before the balance mutation. -/
theorem claim_C7_amounts_rounded (b : Bank) (k : TransactionType) (cl tx : Nat)
    (x : ℚ) (ud : Bool) (a0 : Account)
    (hk : k = .Deposit ∨ k = .Withdrawal)
    (ha0 : (mlookup b.accounts cl).getD (Account.new cl) = a0)
    (hs : (b.process_transaction
      { kind := k, client := cl, tx := tx, amount := some x, under_dispute := ud }).1 =
      .ok ()) :
    mlookup (b.process_transaction
      { kind := k, client := cl, tx := tx, amount := some x,
        under_dispute := ud }).2.transactions tx =
      some { kind := k, client := cl, tx := tx, amount := some (roundDp x 4),
             under_dispute := ud } ∧
    (k = .Deposit →
      mlookup (b.process_transaction
        { kind := k, client := cl, tx := tx, amount := some x,
          under_dispute := ud }).2.accounts cl =
        some { client := a0.client, available := a0.available + roundDp x 4, held := a0.held,
               total := a0.total + roundDp x 4, locked := a0.locked }) ∧
    (k = .Withdrawal →
      mlookup (b.process_transaction
        { kind := k, client := cl, tx := tx, amount := some x,
          under_dispute := ud }).2.accounts cl =
        some { client := a0.client, available := a0.available - roundDp x 4, held := a0.held,
               total := a0.total - roundDp x 4, locked := a0.locked }) := by
  rcases hk with rfl | rfl
  · rw [process_deposit_eq] at hs ⊢
    by_cases hx : x ≤ 0
    · simp [hx] at hs
    · by_cases hdup : mcontains b.transactions tx
      · simp [hx, hdup] at hs
      · cases hl : mlookup b.accounts cl with
        | some a =>
          rw [hl] at ha0
          simp only [Option.getD_some] at ha0
          subst ha0
          by_cases hlk : a.locked
          · simp [hx, hdup, hl, hlk] at hs
          · refine ⟨?_, fun _ => ?_, fun h => absurd h (by simp)⟩ <;>
              simp [hx, hdup, hl, hlk, mlookup_minsert_self]
        | none =>
          rw [hl] at ha0
          simp only [Option.getD_none] at ha0
          subst ha0
          refine ⟨?_, fun _ => ?_, fun h => absurd h (by simp)⟩ <;>
            simp [hx, hdup, hl, mlookup_minsert_self, Account.new]
  · rw [process_withdrawal_eq] at hs ⊢
    by_cases hx : x ≤ 0
    · simp [hx] at hs
    · by_cases hdup : mcontains b.transactions tx
      · simp [hx, hdup] at hs
      · cases hl : mlookup b.accounts cl with
        | some a =>
          rw [hl] at ha0
          simp only [Option.getD_some] at ha0
          subst ha0
          by_cases hlk : a.locked
          · simp [hx, hdup, hl, hlk] at hs
          · by_cases hav : a.available < roundDp x 4
            · simp [hx, hdup, hl, hlk, hav] at hs
            · refine ⟨?_, fun h => absurd h (by simp), fun _ => ?_⟩ <;>
                simp [hx, hdup, hl, hlk, hav, mlookup_minsert_self]
        | none => simp [hx, hdup, hl] at hs

theorem claim_C7_witness :
    (TransactionType.Deposit = TransactionType.Deposit ∨
      TransactionType.Deposit = TransactionType.Withdrawal) ∧
    (mlookup Bank.new.accounts 1).getD (Account.new 1) = Account.new 1 ∧
    (Bank.new.process_transaction
      { kind := .Deposit, client := 1, tx := 1, amount := some (123456/100000),
        under_dispute := false }).1 = .ok () ∧
    mlookup (Bank.new.process_transaction
      { kind := .Deposit, client := 1, tx := 1, amount := some (123456/100000),
        under_dispute := false }).2.transactions 1 =
      some { kind := .Deposit, client := 1, tx := 1,
             amount := some (roundDp (123456/100000) 4), under_dispute := false } ∧
    roundDp (123456/100000) 4 = 6173/5000 :=
  ⟨Or.inl rfl, rfl,
   by norm_num [Bank.process_transaction, Bank.new, Bank.retrieve_account, Transaction.validate,
     Transaction.round_to, roundDp, roundHalfEven, floorQ, Int.fdiv, DECIMAL_PLACES, mlookup,
     minsert, mcontains, Account.new, Account.deposit],
   (claim_C7_amounts_rounded Bank.new .Deposit 1 1 (123456/100000) false (Account.new 1)
     (Or.inl rfl) rfl
     (by norm_num [Bank.process_transaction, Bank.new, Bank.retrieve_account,
       Transaction.validate, Transaction.round_to, roundDp, roundHalfEven, floorQ, Int.fdiv,
       DECIMAL_PLACES, mlookup, minsert, mcontains, Account.new, Account.deposit])).1,
   by norm_num [roundDp, roundHalfEven, floorQ, Int.fdiv]⟩

/-- C10: the lock flag is monotone — a locked account stays locked (in fact
untouched) across any further record stream — and the only step that turns
`locked` from false to true is a successful chargeback addressed to that
account. -/
theorem claim_C10_lock_monotone (b : Bank) (c : Nat) (a : Account)
    (hl : mlookup b.accounts c = some a) :
    (a.locked = true → ∀ ts : List Transaction,
      mlookup (b.process_all ts).accounts c = some a) ∧
    (∀ (t : Transaction) (a' : Account), a.locked = false →
      mlookup ((b.process_transaction t).2).accounts c = some a' → a'.locked = true →
      t.kind = .Chargeback ∧ t.client = c ∧ (b.process_transaction t).1 = .ok ()) := by
  refine ⟨fun hlk ts => locked_persists hl hlk ts, ?_⟩
  rintro ⟨k, cl, tx, amt, ud⟩ a' hfalse hafter halock
  by_cases hc : cl = c
  · subst hc
    cases k with
    | Deposit =>
      exfalso
      rw [process_deposit_eq] at hafter
      repeat' split at hafter
      all_goals simp_all [mlookup_minsert_self]
      all_goals rw [← hafter] at halock
      all_goals simp at halock
    | Withdrawal =>
      exfalso
      rw [process_withdrawal_eq] at hafter
      repeat' split at hafter
      all_goals simp_all [mlookup_minsert_self]
      all_goals rw [← hafter] at halock
      all_goals simp at halock
    | Dispute =>
      exfalso
      rw [process_dispute_eq] at hafter
      repeat' split at hafter
      all_goals simp_all [mlookup_minsert_self]
      all_goals rw [← hafter] at halock
      all_goals simp at halock
    | Resolve =>
      exfalso
      rw [process_resolve_eq] at hafter
      repeat' split at hafter
      all_goals simp_all [mlookup_minsert_self]
      all_goals rw [← hafter] at halock
      all_goals simp at halock
    | Chargeback =>
      rw [process_chargeback_eq] at hafter ⊢
      repeat' split at hafter
      all_goals simp_all [mlookup_minsert_self]
  · exfalso
    rw [process_other_client hc, hl] at hafter
    have ha : a = a' := Option.some.inj hafter
    subst ha
    rw [hfalse] at halock
    exact Bool.false_ne_true halock

theorem claim_C10_witness :
    mlookup lockedBank.accounts 1 =
      some { client := 1, available := 0, held := 0, total := 0, locked := true } ∧
    ((({ client := 1, available := 0, held := 0, total := 0, locked := true } : Account).locked = true →
      ∀ ts : List Transaction, mlookup (lockedBank.process_all ts).accounts 1 =
        some { client := 1, available := 0, held := 0, total := 0, locked := true }) ∧
    (∀ (t : Transaction) (a' : Account),
      (({ client := 1, available := 0, held := 0, total := 0, locked := true } : Account)).locked = false →
      mlookup ((lockedBank.process_transaction t).2).accounts 1 = some a' → a'.locked = true →
      t.kind = .Chargeback ∧ t.client = 1 ∧ (lockedBank.process_transaction t).1 = .ok ())) :=
  ⟨by norm_num [lockedBank, Bank.process_all, Bank.process_transaction, Bank.new,
      Bank.retrieve_account, Bank.retrieve_transaction, Transaction.validate,
      Transaction.validate_against_stored, Transaction.round_to, mkAmtRecord, mkRecord,
      roundDp, roundHalfEven, floorQ, Int.fdiv, DECIMAL_PLACES, mlookup, minsert, mcontains,
      Account.new, Account.deposit, Account.dispute, Account.chargeback],
   claim_C10_lock_monotone lockedBank 1
     { client := 1, available := 0, held := 0, total := 0, locked := true }
     (by norm_num [lockedBank, Bank.process_all, Bank.process_transaction, Bank.new,
        Bank.retrieve_account, Bank.retrieve_transaction, Transaction.validate,
        Transaction.validate_against_stored, Transaction.round_to, mkAmtRecord, mkRecord,
        roundDp, roundHalfEven, floorQ, Int.fdiv, DECIMAL_PLACES, mlookup, minsert, mcontains,
        Account.new, Account.deposit, Account.dispute, Account.chargeback])⟩

/-- A single step preserves `total = available + held` at client `c`,
provided the step is not a successful dispute-family record for `c`. -/
theorem inv_step {b : Bank} {t : Transaction} {c : Nat}
    (hinv : ∀ a, mlookup b.accounts c = some a → a.total = a.available + a.held)
    (hnd : (disputeFamily t.kind && (t.client == c) && isOk (b.process_transaction t).1) = false) :
    ∀ a, mlookup ((b.process_transaction t).2).accounts c = some a →
      a.total = a.available + a.held := by
  obtain ⟨k, cl, tx, amt, ud⟩ := t
  by_cases hc : cl = c
  · subst hc
    cases k with
    | Deposit =>
      intro a' ha'
      rw [process_deposit_eq] at ha'
      repeat' split at ha'
      all_goals simp_all [mlookup_minsert_self]
      all_goals subst ha'
      all_goals try simp
      all_goals ring
    | Withdrawal =>
      intro a' ha'
      rw [process_withdrawal_eq] at ha'
      repeat' split at ha'
      all_goals simp_all [mlookup_minsert_self]
      all_goals subst ha'
      all_goals try simp
      all_goals ring
    | Dispute =>
      intro a' ha'
      rw [process_dispute_eq] at ha' hnd
      repeat' split at ha'
      all_goals simp_all [mlookup_minsert_self, disputeFamily, isOk]
    | Resolve =>
      intro a' ha'
      rw [process_resolve_eq] at ha' hnd
      repeat' split at ha'
      all_goals simp_all [mlookup_minsert_self, disputeFamily, isOk]
    | Chargeback =>
      intro a' ha'
      rw [process_chargeback_eq] at ha' hnd
      repeat' split at ha'
      all_goals simp_all [mlookup_minsert_self, disputeFamily, isOk]
  · intro a' ha'
    rw [process_other_client hc] at ha'
    exact hinv a' ha'

/-- `total = available + held` at client `c` is preserved along any record
stream that applies no successful dispute-family record to `c`. -/
theorem inv_preserved {c : Nat} : ∀ (ts : List Transaction) (b : Bank),
    (∀ a, mlookup b.accounts c = some a → a.total = a.available + a.held) →
    noDisputeApplied c b ts = true →
    ∀ a, mlookup (b.process_all ts).accounts c = some a →
      a.total = a.available + a.held := by
  intro ts
  induction ts with
  | nil =>
    intro b hinv _
    simpa [Bank.process_all] using hinv
  | cons t rest ih =>
    intro b hinv h
    rw [process_all_cons]
    simp only [noDisputeApplied, Bool.and_eq_true, Bool.not_eq_true'] at h
    obtain ⟨h1, h2⟩ := h
    exact ih ((b.process_transaction t).2) (inv_step hinv h1) h2

/-- C6: starting from the empty engine, for every client that is never the
subject of a successfully applied dispute, resolve, or chargeback, the
equation `total = available + held` holds after every processed record: it
holds at account creation and is preserved by every deposit and
withdrawal. -/
theorem claim_C6_invariant_without_disputes (c : Nat) (ts : List Transaction)
    (h : noDisputeApplied c Bank.new ts = true) :
    ∀ a, mlookup (Bank.new.process_all ts).accounts c = some a →
      a.total = a.available + a.held :=
  inv_preserved ts Bank.new (fun a ha => by simp [Bank.new, mlookup] at ha) h

theorem claim_C6_witness :
    noDisputeApplied 1 Bank.new
      [mkAmtRecord .Deposit 1 1 5, mkAmtRecord .Withdrawal 1 2 3] = true ∧
    ∀ a, mlookup (Bank.new.process_all
        [mkAmtRecord .Deposit 1 1 5, mkAmtRecord .Withdrawal 1 2 3]).accounts 1 = some a →
      a.total = a.available + a.held :=
  ⟨by norm_num [noDisputeApplied, disputeFamily, isOk, Bank.process_all,
      Bank.process_transaction, Bank.new, Bank.retrieve_account, Transaction.validate,
      Transaction.round_to, mkAmtRecord, roundDp, roundHalfEven, floorQ, Int.fdiv,
      DECIMAL_PLACES, mlookup, minsert, mcontains, Account.new, Account.deposit,
      Account.withdraw],
   claim_C6_invariant_without_disputes 1
     [mkAmtRecord .Deposit 1 1 5, mkAmtRecord .Withdrawal 1 2 3]
     (by norm_num [noDisputeApplied, disputeFamily, isOk, Bank.process_all,
        Bank.process_transaction, Bank.new, Bank.retrieve_account, Transaction.validate,
        Transaction.round_to, mkAmtRecord, roundDp, roundHalfEven, floorQ, Int.fdiv,
        DECIMAL_PLACES, mlookup, minsert, mcontains, Account.new, Account.deposit,
        Account.withdraw])⟩
